import Mathlib

/-!
Verification development for the Rossum CLI HTTP-client core
(`rossum/lib/api_client.py` and `rossum/lib/sideloading.py`).

The Python code is embedded shallowly:
* JSON-like response values become the inductive `FieldVal`; Python dicts
  become ordered association lists (`pyGet` / `pySet` mirror `d[k]` / `d[k]=v`,
  first binding wins, insertion order preserved, in-place value replacement).
* Exceptions become the `Err` type and fallible code returns `Except Err _`.
  Python `KeyError` and `TypeError` (hashing an unhashable value such as a
  dict) are modelled explicitly.
* The network is modelled by passing the sequence of pages the server would
  return (first page plus the pages reached by following `pagination.next`)
  directly to `get_paginated`; the number of HTTP requests the code would
  issue is returned alongside the result.
-/

namespace Rossum

/-- JSON-like values as they appear in API responses: strings (resource
references are URL strings), objects (Python dicts) and arrays. -/
inductive FieldVal where
  | str : String → FieldVal
  | obj : List (String × FieldVal) → FieldVal
  | arr : List FieldVal → FieldVal
deriving Repr

/-- An object record: a Python dict from field name to value. -/
abbrev Obj := List (String × FieldVal)

/-- Python dict read `d.get(k)` / `d[k]`: keys are unique in real dicts, the
first binding wins. -/
def pyGet {α : Type} : List (String × α) → String → Option α
  | [], _ => none
  | (k', v) :: rest, k => if k' = k then some v else pyGet rest k

/-- Python dict write `d[k] = v`: replace the binding in place if the key is
present, otherwise append the new binding at the end (insertion order). -/
def pySet {α : Type} : List (String × α) → String → α → List (String × α)
  | [], k, v => [(k, v)]
  | (k', v') :: rest, k, v =>
      if k' = k then (k', v) :: rest else (k', v') :: pySet rest k v

/-- Exceptions raised by the embedded code: `RossumException message`, Python
`KeyError`, Python `TypeError` (e.g. using an unhashable value as a dict
key, or `PurePath(None)`). -/
inductive Err where
  | rossum : String → Err
  | keyError : Err
  | typeError : Err
deriving Repr, DecidableEq

/-! ## `rossum/lib/sideloading.py` -/

/-- Python `s.rstrip("s")`: drop every trailing `'s'` character. -/
def rstrip_s (s : String) : String :=
  String.mk ((s.data.reverse.dropWhile (fun c => c = 's')).reverse)

/-- A sideload descriptor's two names (`Sideload.plural` / `Sideload.singular`). -/
structure Sideload where
  plural : String
  singular : String
deriving Repr, DecidableEq

/-- `Sideload.__init__` + `__post_init__`: the `NOT_SET` sentinel default is
embedded as `Option.none`; when no singular name is supplied it defaults to
`plural.rstrip("s")`. -/
def mkSideload (plural : String) (singular : Option String) : Sideload :=
  { plural := plural, singular := singular.getD (rstrip_s plural) }

/-- Python `s.split(sep)` for a single-character separator, written by
structural recursion over the characters so that it evaluates inside the
kernel (splitting the empty string yields `[""]`, like Python). -/
def splitCharAux (sep : Char) : List Char → List Char → List String
  | [], acc => [String.mk acc.reverse]
  | c :: cs, acc =>
      if c = sep then String.mk acc.reverse :: splitCharAux sep cs []
      else splitCharAux sep cs (c :: acc)

/-- Python `s.split(sep)` for a one-character separator. -/
def splitChar (sep : Char) (s : String) : List String :=
  splitCharAux sep s.data []

/-- Python `s.strip()`: drop leading and trailing whitespace. -/
def pyStrip (s : String) : String :=
  String.mk (((s.data.dropWhile Char.isWhitespace).reverse.dropWhile
    Char.isWhitespace).reverse)

/-- `Sideload._parse_query_array`: split on commas, strip whitespace, drop
empty items. -/
def parse_query_array (array : String) : List String :=
  ((splitChar ',' array).map pyStrip).filter (fun i => i ≠ "")

/-- A request query: a Python dict with string values. -/
abbrev Query := List (String × String)

/-- `Sideload.setup_query`: append `str(self)` (the plural name) to the
comma-joined `sideload` query parameter unless already present. -/
def Sideload.setup_query (s : Sideload) (query : Query) : Query :=
  let qs := parse_query_array ((pyGet query "sideload").getD "")
  let qs := if s.plural ∈ qs then qs else qs ++ [s.plural]
  pySet query "sideload" (String.intercalate "," qs)

/-- `Content.setup_query`: a content-style descriptor with no schema ids is a
no-op; otherwise run the base `setup_query` and then append each schema id to
the comma-joined `content.schema_id` parameter, deduplicated. -/
def Content.setup_query (s : Sideload) (schema_ids : List String) (query : Query) : Query :=
  if schema_ids = [] then query
  else
    let query := s.setup_query query
    let ids := parse_query_array ((pyGet query "content.schema_id").getD "")
    let ids := schema_ids.foldl (fun acc i => if i ∈ acc then acc else acc ++ [i]) ids
    pySet query "content.schema_id" (String.intercalate "," ids)

/-- The polymorphic descriptor: a base `Sideload` or the `Content` variant
with its schema ids. -/
inductive Descriptor where
  | plain : Sideload → Descriptor
  | content : Sideload → List String → Descriptor

/-- The names of a descriptor. -/
def Descriptor.sideload : Descriptor → Sideload
  | .plain s => s
  | .content s _ => s

/-- Dynamic dispatch of `setup_query`. -/
def Descriptor.setupQuery : Descriptor → Query → Query
  | .plain s, q => s.setup_query q
  | .content s ids, q => Content.setup_query s ids q

/-- A sideload mapping (`sideload.get_mapping(...)`): URL (or parent-URL) keys
to looked-up values — a single object for base descriptors, a list for the
content variant. -/
abbrev Mapping := List (String × FieldVal)

/-- `Sideload.get_mapping` = `{obj["url"]: obj for obj in objects}`, built left
to right so a duplicate URL keeps the last object ("last wins").  A record
without a `"url"` field raises `KeyError`; a non-string `"url"` value is
unhashable and raises `TypeError`. -/
def get_mapping_plain_from (acc : Mapping) : List Obj → Except Err Mapping
  | [] => .ok acc
  | o :: rest =>
      match pyGet o "url" with
      | some (.str u) => get_mapping_plain_from (pySet acc u (.obj o)) rest
      | some _ => .error .typeError
      | none => .error .keyError

/-- Entry point of `Sideload.get_mapping`. -/
def get_mapping_plain (objects : List Obj) : Except Err Mapping :=
  get_mapping_plain_from [] objects

/-- Python `u.rsplit("/", 1)[0]`: everything before the last slash, or the
whole string when it contains no slash. -/
def rsplit_parent (u : String) : String :=
  let parts := splitChar '/' u
  if parts.length ≤ 1 then u else String.intercalate "/" parts.dropLast

/-- `Content.get_mapping`: group the objects by the parent URL obtained by
truncating the final path segment of each object's `"url"`
(`mapping.setdefault(parent, []).append(obj)`). -/
def get_mapping_content_from (acc : Mapping) : List Obj → Except Err Mapping
  | [] => .ok acc
  | o :: rest =>
      match pyGet o "url" with
      | some (.str u) =>
          let p := rsplit_parent u
          let acc := match pyGet acc p with
            | some (.arr l) => pySet acc p (.arr (l ++ [.obj o]))
            | _ => acc ++ [(p, .arr [.obj o])]
          get_mapping_content_from acc rest
      | some _ => .error .typeError
      | none => .error .keyError

/-- Entry point of `Content.get_mapping`. -/
def get_mapping_content (objects : List Obj) : Except Err Mapping :=
  get_mapping_content_from [] objects

/-- Dynamic dispatch of `get_mapping`. -/
def Descriptor.get_mapping : Descriptor → List Obj → Except Err Mapping
  | .plain _, objects => get_mapping_plain objects
  | .content _ _, objects => get_mapping_content objects

/-! ## `APIClient._resolve_sideloads` -/

/-- Python iteration `for url in value`: arrays yield their elements, strings
yield their characters as one-character strings, dicts yield their keys. -/
def pyIter : FieldVal → List FieldVal
  | .arr l => l
  | .str s => s.data.map (fun c => .str (String.mk [c]))
  | .obj fields => fields.map (fun kv => .str kv.1)

/-- The list comprehension
`[sideloaded_dicts[url] for url in obj[plural] if url in sideloaded_dicts]`:
references missing from the mapping are silently dropped; testing membership
of an unhashable value (a dict or list) raises `TypeError`. -/
def resolveRefs (m : Mapping) : List FieldVal → Except Err (List FieldVal)
  | [] => .ok []
  | (.str u) :: rest =>
      match pyGet m u with
      | some v =>
          match resolveRefs m rest with
          | .ok l => .ok (v :: l)
          | .error e => .error e
      | none => resolveRefs m rest
  | _ :: _ => .error .typeError

/-- `inject_sideloaded(obj)` (inner function of `_resolve_sideloads`): if the
record has the singular field, replace its value with
`sideloaded_dicts.get(url, {})` — where hashing a non-string raises
`TypeError`; on `KeyError` (no singular field) replace the plural field with
the resolved list, which raises `KeyError` if the plural field is missing
too. -/
def inject (m : Mapping) (s : Sideload) (o : Obj) : Except Err Obj :=
  match pyGet o s.singular with
  | some url =>
      match url with
      | .str u => .ok (pySet o s.singular ((pyGet m u).getD (.obj [])))
      | _ => .error .typeError
  | none =>
      match pyGet o s.plural with
      | none => .error .keyError
      | some pv =>
          match resolveRefs m (pyIter pv) with
          | .ok l => .ok (pySet o s.plural (.arr l))
          | .error e => .error e

/-- `for obj in response["results"]: inject_sideloaded(obj)` — the records are
rewritten in order; the first raised exception aborts the loop. -/
def injectAll (m : Mapping) (s : Sideload) : List Obj → Except Err (List Obj)
  | [] => .ok []
  | o :: rest =>
      match inject m s o with
      | .ok o' =>
          match injectAll m s rest with
          | .ok l => .ok (o' :: l)
          | .error e => .error e
      | .error e => .error e

/-- The assembled paginated response without its pagination block: a Python
dict from top-level key to a list of records (`results` plus the sideloaded
lists). -/
abbrev Resp := List (String × List Obj)

/-- One iteration of the `for sideload in sideloads` loop of
`_resolve_sideloads`: build the mapping from `response.get(plural, [])`, then
inject into every record of `response["results"]`. -/
def resolve_one (resp : Resp) (d : Descriptor) : Except Err Resp :=
  match d.get_mapping ((pyGet resp d.sideload.plural).getD []) with
  | .error e => .error e
  | .ok m =>
      match pyGet resp "results" with
      | none => .error .keyError
      | some results =>
          match injectAll m d.sideload results with
          | .ok results' => .ok (pySet resp "results" results')
          | .error e => .error e

/-- `APIClient._resolve_sideloads`. -/
def resolve_sideloads : Resp → List Descriptor → Except Err Resp
  | resp, [] => .ok resp
  | resp, d :: ds =>
      match resolve_one resp d with
      | .ok resp' => resolve_sideloads resp' ds
      | .error e => .error e

/-! ## `APIClient.get_paginated` -/

/-- The `pagination` block of a page. -/
structure Pagination where
  next : Option String
  total : Nat
deriving Repr

/-- One page as returned by the server: its non-`pagination` top-level list
fields plus the pagination block. -/
structure Page where
  content : Resp
  pagination : Pagination
deriving Repr

/-- `res.setdefault(k, []).extend(v)`. -/
def extendKey (res : Resp) (k : String) (v : List Obj) : Resp :=
  match pyGet res k with
  | some l => pySet res k (l ++ v)
  | none => res ++ [(k, v)]

/-- Merge one follow-up page into the accumulated response: every key except
`pagination` is extended (the pagination block is kept apart in `Page`). -/
def mergePage (res : Resp) (p : Page) : Resp :=
  p.content.foldl (fun r kv => extendKey r kv.1 kv.2) res

/-- The accumulated response after following every `pagination.next` link:
start from the first page's dict, merge each follow-up page in order. -/
def aggregate (first : Page) (rest : List Page) : Resp :=
  rest.foldl mergePage first.content

/-- `response_dict["pagination"]["total"]` after the loop: the pagination
block of the last page fetched (the first page when there is no next link). -/
def lastTotal (first : Page) (rest : List Page) : Nat :=
  (rest.getLastD first).pagination.total

/-- What a call to `get_paginated` produces: the returned value (or the
raised exception), the number of HTTP GET requests issued, and the query the
requests carried. -/
structure GetPaginatedOut where
  result : Except Err (List Obj × Nat)
  requests : Nat
  sentQuery : Query
deriving Repr

/-- `APIClient.get_paginated(path, query, key=key, sideloads=sideloads)`,
with the network shallowly embedded as the page sequence the server returns
(`first`, then the pages reached by following `pagination.next`).  With
descriptors present: fail fast on a raw `sideload` query parameter, extend a
copy of the query via each descriptor's `setup_query`, aggregate all pages,
resolve sideloads, and return `res[key]` with the last page's total. -/
def get_paginated (query : Query) (key : String) (sideloads : List Descriptor)
    (first : Page) (rest : List Page) : GetPaginatedOut :=
  match sideloads with
  | [] =>
      let res := aggregate first rest
      match pyGet res key with
      | none => ⟨.error .keyError, 1 + rest.length, query⟩
      | some l => ⟨.ok (l, lastTotal first rest), 1 + rest.length, query⟩
  | d :: ds =>
      if (pyGet query "sideload").isSome then
        ⟨.error (.rossum "sideloading cannot be specified both in query and sideloads"),
          0, query⟩
      else
        let sent := (d :: ds).foldl (fun q dd => dd.setupQuery q) query
        let res := aggregate first rest
        match resolve_sideloads res (d :: ds) with
        | .error e => ⟨.error e, 1 + rest.length, sent⟩
        | .ok res' =>
            match pyGet res' key with
            | none => ⟨.error .keyError, 1 + rest.length, sent⟩
            | some l => ⟨.ok (l, lastTotal first rest), 1 + rest.length, sent⟩

/-! ## `APIClient.get_retry_logic` and the retry executor -/

/-- The exception classes relevant to the retry predicate: the four transient
connectivity failures listed in `get_retry_logic`, plus the non-retried
kinds (an application-level `RossumException` carrying an HTTP error status,
and any other exception such as a JSON decode error). -/
inductive Exc where
  | proxyError
  | connectionError
  | newConnectionError
  | connectTimeoutError
  | httpError
  | otherError
deriving Repr, DecidableEq

/-- The `retry` field of the rules:
`retry_if_exception_type(ProxyError) | retry_if_exception_type(ConnectionError)
| retry_if_exception_type(NewConnectionError)
| retry_if_exception_type(ConnectTimeoutError)`. -/
def retryOnTransient (e : Exc) : Bool :=
  match e with
  | .proxyError => true
  | .connectionError => true
  | .newConnectionError => true
  | .connectTimeoutError => true
  | .httpError => false
  | .otherError => false

/-- The dictionary `get_retry_logic` builds for the retry decorator. -/
structure RetryRules where
  reraise : Bool
  stopAfterAttempt : Nat
  stopAfterDelay : Nat
  waitFixed : Nat
  retryOn : Exc → Bool

/-- `APIClient.get_retry_logic(retry_logic_rules)`: read `"attempts"`
(default 3) and `"wait_s"` (default 5) from the caller-supplied rules dict
(`None` embedded as the empty dict), stop after that many attempts or after a
55 second overall delay, wait a fixed interval, retry only on the four
transient exception types, and re-raise the last exception. -/
def get_retry_logic (retry_logic_rules : List (String × Nat)) : RetryRules :=
  { reraise := true
    stopAfterAttempt := (pyGet retry_logic_rules "attempts").getD 3
    stopAfterDelay := 55
    waitFixed := (pyGet retry_logic_rules "wait_s").getD 5
    retryOn := retryOnTransient }

/-- What one attempt of the wrapped call does. -/
inductive Outcome where
  | ok
  | exc : Exc → Outcome
deriving Repr, DecidableEq

/-- How a retried call ends: success or a raised exception, together with the
number of attempts that were executed. -/
inductive RetryResult where
  | success : Nat → RetryResult
  | raised : Exc → Nat → RetryResult
deriving Repr, DecidableEq

/-- The attempt count of a retry run. -/
def RetryResult.attemptsMade : RetryResult → Nat
  | .success k => k
  | .raised _ k => k

/-- Modelled from the spec: the semantics of the third-party retry decorator
(the `tenacity` library, not part of this repository) configured by
`get_retry_logic`.  `outcomes k` is what the k-th attempt of the wrapped call
would do; attempts are counted from 1 and treated as instantaneous, so the
time elapsed when attempt k finishes is `(k-1) * waitFixed`.  After a failed
attempt: a non-retryable exception propagates at once; otherwise, if the
attempt count has reached `stopAfterAttempt` or the elapsed time has reached
`stopAfterDelay`, the last exception is re-raised (`reraise=True`); otherwise
the executor waits `waitFixed` seconds and tries again.  The fuel argument
bounds the remaining attempts; starting it at `stopAfterAttempt` makes the
zero-fuel equation (stop right after the current attempt) coincide with the
`stop_after_attempt` stop condition. -/
def runRetryGo (r : RetryRules) (outcomes : Nat → Outcome) :
    Nat → Nat → Nat → RetryResult
  | 0, attempt, _ =>
      match outcomes attempt with
      | .ok => .success attempt
      | .exc e => .raised e attempt
  | fuel + 1, attempt, elapsed =>
      match outcomes attempt with
      | .ok => .success attempt
      | .exc e =>
          if r.retryOn e = false then .raised e attempt
          else if r.stopAfterAttempt ≤ attempt ∨ r.stopAfterDelay ≤ elapsed then
            .raised e attempt
          else runRetryGo r outcomes fuel (attempt + 1) (elapsed + r.waitFixed)

/-- Run a call wrapped by `retry(**self._retry_logic_rules)`. -/
def runRetry (r : RetryRules) (outcomes : Nat → Outcome) : RetryResult :=
  runRetryGo r outcomes r.stopAfterAttempt 1 0

/-! ## `APIClient.delete` -/

/-- What `delete_url(url)` does for one target: succeed, raise a
`RossumException` (an API error), or raise some other, unexpected
exception. -/
inductive DelOutcome where
  | ok
  | apiError : String → DelOutcome
  | otherError : String → DelOutcome
deriving Repr, DecidableEq

/-- Whether a delete outcome is the unexpected (non-API) kind. -/
def DelOutcome.isUnexpected : DelOutcome → Bool
  | .ok => false
  | .apiError _ => false
  | .otherError _ => true

/-- The observable behaviour of a bulk delete: which target URLs were
attempted (in order), what was echoed to the console, and whether the call
returned normally or raised. -/
structure DelTrace where
  attempted : List String
  echoed : List String
  result : Except Err Unit
deriving Repr

/-- `APIClient.delete(to_delete, verbose, item)`: iterate the mapping in
order; a `RossumException` is echoed and the loop continues; any other
exception is echoed and re-raised as `RossumException(str(exc))`, aborting
the rest of the batch; with `verbose > 1` each success is echoed too. -/
def delete (to_delete : List (String × String)) (outcome : String → DelOutcome)
    (verbose : Nat) (item : String) : DelTrace :=
  match to_delete with
  | [] => ⟨[], [], .ok ()⟩
  | (id_, url) :: rest =>
      match outcome url with
      | .ok =>
          let t := delete rest outcome verbose item
          ⟨url :: t.attempted,
            (if 1 < verbose then [s!"Deleted {item} {id_}."] else []) ++ t.echoed,
            t.result⟩
      | .apiError msg =>
          let t := delete rest outcome verbose item
          ⟨url :: t.attempted,
            (s!"Deleting {item} {id_} caused \x22{msg}\x22." :: t.echoed),
            t.result⟩
      | .otherError msg =>
          ⟨[url],
            [s!"Deleting {item} {id_} caused an unexpected exception: \x22{msg}\x22."],
            .error (.rossum msg)⟩

/-! ## `RossumClient.upload_document` -/

/-- Python truthiness of an optional string (`None` and `""` are falsy). -/
def strTruthy : Option String → Bool
  | none => false
  | some s => s ≠ ""

/-- Python truthiness of optional bytes (`None` and `b""` are falsy). -/
def bytesTruthy : Option (List Nat) → Bool
  | none => false
  | some b => b ≠ []

/-- `PurePath(p).name`: the final path component (shallow model: last
non-empty slash-separated component). -/
def pathName (p : String) : String :=
  ((p.splitOn "/").filter (fun c => c ≠ "")).getLastD ""

/-- The byte source of the multipart `content` field. -/
inductive FileSource where
  | openedFile : String → FileSource
  | bytesContent : List Nat → FileSource
deriving Repr, DecidableEq

/-- The multipart payload `upload_document` would POST, and the path it is
posted to (`queues/{id_}/upload`). -/
structure UploadPayload where
  uploadPath : String
  filename : String
  source : FileSource
  valuesPart : Option (List (String × String))
  metadataPart : Option (List (String × String))
deriving Repr, DecidableEq

/-- Result of `upload_document`: the payload of the single POST it issues, or
the exception raised, plus the number of requests sent. -/
structure UploadOut where
  result : Except Err UploadPayload
  requests : Nat
deriving Repr

/-- `RossumClient.upload_document(id_, file, filename_overwrite, values,
metadata, file_bytes)`: validation first — `RossumException` when neither
`file` nor `file_bytes` is truthy, then `RossumException` when `file_bytes`
is truthy but `filename_overwrite` is not; with a truthy `file` the filename
is `PurePath(filename_overwrite).name or PurePath(file).name`
(`PurePath(None)` raises `TypeError`); otherwise the bytes are sent under
`filename_overwrite`.  `values` is attached when not `None`, `metadata` when
truthy. -/
def upload_document (id_ : Nat) (file : Option String) (filename_overwrite : Option String)
    (values : Option (List (String × String))) (metadata : Option (List (String × String)))
    (file_bytes : Option (List Nat)) : UploadOut :=
  if (strTruthy file || bytesTruthy file_bytes) = false then
    ⟨.error (.rossum "No file(s) to be sent."), 0⟩
  else if bytesTruthy file_bytes && (strTruthy filename_overwrite == false) then
    ⟨.error (.rossum
      "Need to pass filename_overwrite parameter to state the file name for the uploaded document."),
      0⟩
  else
    let metadataPart := match metadata with
      | none => none
      | some m => if m = [] then none else some m
    let payload : Except Err UploadPayload :=
      if strTruthy file then
        match filename_overwrite with
        | none => .error .typeError
        | some fo =>
            let fn := if pathName fo ≠ "" then pathName fo else pathName (file.getD "")
            .ok ⟨s!"queues/{id_}/upload", fn, .openedFile (file.getD ""), values, metadataPart⟩
      else
        .ok ⟨s!"queues/{id_}/upload", filename_overwrite.getD "",
          .bytesContent (file_bytes.getD []), values, metadataPart⟩
    match payload with
    | .ok p => ⟨.ok p, 1⟩
    | .error e => ⟨.error e, 0⟩

/-! ## Heap-level model of the query frame property of `get_paginated` -/

/-- A heap of Python dict objects, addressed by index, to make in-place
mutation and `query.copy()` observable. -/
abbrev Heap := List Query

/-- Dereference a dict. -/
def heapGet (h : Heap) (r : Nat) : Query := h.getD r []

/-- Overwrite a dict in place. -/
def heapSet (h : Heap) (r : Nat) (q : Query) : Heap := h.set r q

/-- `sideload.setup_query(query)` at the state level: it mutates the dict it
is handed in place. -/
def setup_query_st (d : Descriptor) (r : Nat) (h : Heap) : Heap :=
  heapSet h r (d.setupQuery (heapGet h r))

/-- The query-building prefix of `get_paginated` at the state level: with no
descriptors the caller's dict is used as is (and never written); otherwise,
after the fail-fast conflict check, `query = query.copy()` allocates a fresh
dict and every descriptor's `setup_query` mutates that copy. Returns the
final heap and the address of the dict the request would carry (or the
raised exception). -/
def get_paginated_build_query_st (sideloads : List Descriptor) (r : Nat) (h : Heap) :
    Heap × Except Err Nat :=
  match sideloads with
  | [] => (h, .ok r)
  | _ :: _ =>
      if (pyGet (heapGet h r) "sideload").isSome then
        (h, .error (.rossum "sideloading cannot be specified both in query and sideloads"))
      else
        let r2 := h.length
        let h2 := h ++ [heapGet h r]
        (sideloads.foldl (fun hh d => setup_query_st d r2 hh) h2, .ok r2)

/-! ## Derived notions used to state the claims -/

/-- The list a page holds under a given key: all of its bindings for that key
joined (a well-formed page, like a Python dict, has at most one). -/
def pageVals (p : Page) (key : String) : List Obj :=
  ((p.content.filter (fun kv => kv.1 = key)).map (fun kv => kv.2)).flatten

/-- The record transform a list of descriptors applies to a list of parent
records: for each descriptor in order, build its mapping from the assembled
response and inject into every record. -/
def injectPipeline (base : Resp) : List Descriptor → List Obj → Except Err (List Obj)
  | [], l => .ok l
  | d :: ds, l =>
      match d.get_mapping ((pyGet base d.sideload.plural).getD []) with
      | .error e => .error e
      | .ok m =>
          match injectAll m d.sideload l with
          | .ok l2 => injectPipeline base ds l2
          | .error e => .error e

/-- `injectPipeline` applied to each page's list separately. -/
def injectPages (base : Resp) (ds : List Descriptor) :
    List (List Obj) → Except Err (List (List Obj))
  | [] => .ok []
  | l :: rest =>
      match injectPipeline base ds l with
      | .ok l2 =>
          match injectPages base ds rest with
          | .ok ls => .ok (l2 :: ls)
          | .error e => .error e
      | .error e => .error e

/-- A base sideload descriptor for the `workspaces` type, as
`to_sideloads(["workspaces"])` would build it. -/
def workspacesDescriptor : Descriptor := .plain (mkSideload "workspaces" none)

/-- A one-page server response: one parent record holding a workspace
reference, plus the sideloaded `workspaces` list. -/
def samplePage : Page :=
  { content := [("results", [[("workspace", FieldVal.str "u1")]]),
                ("workspaces", [[("url", FieldVal.str "u1"), ("name", FieldVal.str "W1")]])]
    pagination := { next := none, total := 1 } }

/-- The assembled response of `samplePage` before sideload resolution. -/
def sampleRawResponse : Resp :=
  [("results", [[("workspace", FieldVal.str "u1")]]),
   ("workspaces", [[("url", FieldVal.str "u1"), ("name", FieldVal.str "W1")]])]

/-- The same response after one resolution pass: the reference string has been
replaced by the looked-up workspace object. -/
def sampleResolvedResponse : Resp :=
  [("results", [[("workspace",
      FieldVal.obj [("url", FieldVal.str "u1"), ("name", FieldVal.str "W1")])]]),
   ("workspaces", [[("url", FieldVal.str "u1"), ("name", FieldVal.str "W1")]])]

/-- A response whose only record carries an already-resolved plural field
holding the empty list. -/
def sampleEmptyPluralResponse : Resp :=
  [("results", [[("workspaces", FieldVal.arr [])]])]

/-- A delete-outcome oracle for a three-target batch whose second target
raises an unexpected exception. -/
def sampleDeleteOutcome : String → DelOutcome :=
  fun u => if u = "url2" then .otherError "boom" else .ok

/-! ## Dictionary lemmas -/

theorem pyGet_pySet_self {α : Type} (l : List (String × α)) (k : String) (v : α) :
    pyGet (pySet l k v) k = some v := by
  induction l with
  | nil => simp [pySet, pyGet]
  | cons hd tl ih =>
      obtain ⟨k', v'⟩ := hd
      by_cases h : k' = k <;> simp [pySet, pyGet, h, ih]

theorem pyGet_pySet_ne {α : Type} (l : List (String × α)) (k k2 : String) (v : α)
    (h : k2 ≠ k) : pyGet (pySet l k v) k2 = pyGet l k2 := by
  induction l with
  | nil => simp [pySet, pyGet, Ne.symm h]
  | cons hd tl ih =>
      obtain ⟨k', v'⟩ := hd
      by_cases hk : k' = k
      · subst hk
        simp [pySet, pyGet, Ne.symm h]
      · simp [pySet, pyGet, hk, ih]

theorem pySet_eq_of_pyGet {α : Type} (l : List (String × α)) (k : String) (v : α)
    (h : pyGet l k = some v) : pySet l k v = l := by
  induction l with
  | nil => simp [pyGet] at h
  | cons hd tl ih =>
      obtain ⟨k', v'⟩ := hd
      by_cases hk : k' = k
      · subst hk
        simp [pyGet] at h
        simp [pySet, h]
      · simp [pyGet, hk] at h
        simp [pySet, hk, ih h]

theorem pySet_pySet {α : Type} (l : List (String × α)) (k : String) (v w : α) :
    pySet (pySet l k v) k w = pySet l k w := by
  induction l with
  | nil => simp [pySet]
  | cons hd tl ih =>
      obtain ⟨k', v'⟩ := hd
      by_cases hk : k' = k <;> simp [pySet, hk, ih]

theorem pyGet_append {α : Type} (l1 l2 : List (String × α)) (k : String) :
    pyGet (l1 ++ l2) k = (pyGet l1 k).or (pyGet l2 k) := by
  induction l1 with
  | nil => simp [pyGet]
  | cons hd tl ih =>
      obtain ⟨k', v'⟩ := hd
      by_cases hk : k' = k <;> simp [pyGet, hk, ih]

/-! ## Aggregation lemmas -/

theorem pyGet_extendKey_self (res : Resp) (k : String) (v l : List Obj)
    (h : pyGet res k = some l) : pyGet (extendKey res k v) k = some (l ++ v) := by
  simp [extendKey, h, pyGet_pySet_self]

theorem pyGet_extendKey_ne (res : Resp) (k k2 : String) (v : List Obj) (h : k2 ≠ k) :
    pyGet (extendKey res k v) k2 = pyGet res k2 := by
  unfold extendKey
  cases hres : pyGet res k with
  | some l => exact pyGet_pySet_ne res k k2 (l ++ v) h
  | none =>
      rw [pyGet_append]
      simp [pyGet, Ne.symm h]

theorem foldl_extend_get (key : String) (kvs : List (String × List Obj)) :
    ∀ (res : Resp) (l : List Obj), pyGet res key = some l →
    pyGet (kvs.foldl (fun r kv => extendKey r kv.1 kv.2) res) key
      = some (l ++ ((kvs.filter (fun kv => kv.1 = key)).map (fun kv => kv.2)).flatten) := by
  induction kvs with
  | nil => intro res l h; simpa using h
  | cons hd tl ih =>
      intro res l h
      obtain ⟨k0, v0⟩ := hd
      by_cases hk : k0 = key
      · subst hk
        have h1 := pyGet_extendKey_self res k0 v0 l h
        have h2 := ih (extendKey res k0 v0) (l ++ v0) h1
        simpa [List.append_assoc] using h2
      · have h1 : pyGet (extendKey res k0 v0) key = some l := by
          rw [pyGet_extendKey_ne res k0 key v0 (fun hh => hk hh.symm)]
          exact h
        have h2 := ih (extendKey res k0 v0) l h1
        simpa [hk] using h2

theorem mergePage_get (key : String) (res : Resp) (p : Page) (l : List Obj)
    (h : pyGet res key = some l) :
    pyGet (mergePage res p) key = some (l ++ pageVals p key) := by
  exact foldl_extend_get key p.content res l h

theorem foldl_merge_get (key : String) (rest : List Page) :
    ∀ (res : Resp) (l : List Obj), pyGet res key = some l →
    pyGet (rest.foldl mergePage res) key
      = some (l ++ (rest.map (fun p => pageVals p key)).flatten) := by
  induction rest with
  | nil => intro res l h; simpa using h
  | cons p tl ih =>
      intro res l h
      have h1 := mergePage_get key res p l h
      have h2 := ih (mergePage res p) (l ++ pageVals p key) h1
      simpa [List.append_assoc] using h2

theorem aggregate_get (key : String) (first : Page) (rest : List Page) (l0 : List Obj)
    (h : pyGet first.content key = some l0) :
    pyGet (aggregate first rest) key
      = some (l0 ++ (rest.map (fun p => pageVals p key)).flatten) :=
  foldl_merge_get key rest first.content l0 h

/-! ## Injection lemmas -/

theorem resolveRefs_map_str (m : Mapping) (us : List String) :
    resolveRefs m (us.map FieldVal.str) = .ok (us.filterMap (fun u => pyGet m u)) := by
  induction us with
  | nil => simp [resolveRefs]
  | cons u tl ih =>
      match hm : pyGet m u with
      | some v => simp [resolveRefs, hm, ih]
      | none => simp [resolveRefs, hm, ih]

theorem injectAll_of_fixed (m : Mapping) (s : Sideload) (l : List Obj)
    (h : ∀ o ∈ l, inject m s o = .ok o) : injectAll m s l = .ok l := by
  induction l with
  | nil => rfl
  | cons o tl ih =>
      have ho := h o (by simp)
      have htl := ih (fun o2 ho2 => h o2 (by simp [ho2]))
      simp [injectAll, ho, htl]

theorem injectAll_append (m : Mapping) (s : Sideload) (a b : List Obj) (x y : List Obj)
    (ha : injectAll m s a = .ok x) (hb : injectAll m s b = .ok y) :
    injectAll m s (a ++ b) = .ok (x ++ y) := by
  induction a generalizing x with
  | nil =>
      simp [injectAll] at ha
      subst ha
      simpa using hb
  | cons o tl ih =>
      unfold injectAll at ha
      match ho : inject m s o with
      | .error e => rw [ho] at ha; exact absurd ha (by simp)
      | .ok o2 =>
          rw [ho] at ha
          match htl : injectAll m s tl with
          | .error e => rw [htl] at ha; exact absurd ha (by simp)
          | .ok xs =>
              rw [htl] at ha
              simp at ha
              subst ha
              simp [injectAll, ho, ih xs htl]

theorem injectPipeline_cons_error (base : Resp) (d : Descriptor) (tl : List Descriptor)
    (l : List Obj) {e : Err}
    (hm : d.get_mapping ((pyGet base (Descriptor.sideload d).plural).getD []) = .error e) :
    injectPipeline base (d :: tl) l = .error e := by
  unfold injectPipeline
  rw [hm]

theorem injectPipeline_cons_expand (base : Resp) (d : Descriptor) (tl : List Descriptor)
    (l : List Obj) {m : Mapping}
    (hm : d.get_mapping ((pyGet base (Descriptor.sideload d).plural).getD []) = .ok m) :
    injectPipeline base (d :: tl) l
      = match injectAll m (Descriptor.sideload d) l with
        | .ok l2 => injectPipeline base tl l2
        | .error e => .error e := by
  have hstep : injectPipeline base (d :: tl) l
      = match d.get_mapping ((pyGet base (Descriptor.sideload d).plural).getD []) with
        | .error e => .error e
        | .ok mm =>
            match injectAll mm (Descriptor.sideload d) l with
            | .ok l2 => injectPipeline base tl l2
            | .error e => .error e := rfl
  rw [hstep, hm]

theorem injectPipeline_append (base : Resp) (ds : List Descriptor) :
    ∀ (a b x y : List Obj), injectPipeline base ds a = .ok x →
    injectPipeline base ds b = .ok y →
    injectPipeline base ds (a ++ b) = .ok (x ++ y) := by
  induction ds with
  | nil =>
      intro a b x y ha hb
      simp [injectPipeline] at ha hb ⊢
      simp [ha, hb]
  | cons d tl ih =>
      intro a b x y ha hb
      cases hm : d.get_mapping ((pyGet base (Descriptor.sideload d).plural).getD []) with
      | error e =>
          rw [injectPipeline_cons_error base d tl a hm] at ha
          simp at ha
      | ok m =>
          rw [injectPipeline_cons_expand base d tl a hm] at ha
          rw [injectPipeline_cons_expand base d tl b hm] at hb
          rw [injectPipeline_cons_expand base d tl (a ++ b) hm]
          cases h1 : injectAll m (Descriptor.sideload d) a with
          | error e => rw [h1] at ha; simp at ha
          | ok a2 =>
              rw [h1] at ha
              have ha2 : injectPipeline base tl a2 = .ok x := ha
              cases h2 : injectAll m (Descriptor.sideload d) b with
              | error e => rw [h2] at hb; simp at hb
              | ok b2 =>
                  rw [h2] at hb
                  have hb2 : injectPipeline base tl b2 = .ok y := hb
                  rw [injectAll_append m (Descriptor.sideload d) a b a2 b2 h1 h2]
                  exact ih a2 b2 x y ha2 hb2

theorem injectPipeline_nil_of_ok (base : Resp) (ds : List Descriptor) :
    ∀ (a x : List Obj), injectPipeline base ds a = .ok x →
    injectPipeline base ds [] = .ok [] := by
  induction ds with
  | nil => intro a x _; rfl
  | cons d tl ih =>
      intro a x ha
      cases hm : d.get_mapping ((pyGet base (Descriptor.sideload d).plural).getD []) with
      | error e =>
          rw [injectPipeline_cons_error base d tl a hm] at ha
          simp at ha
      | ok m =>
          rw [injectPipeline_cons_expand base d tl a hm] at ha
          cases h1 : injectAll m (Descriptor.sideload d) a with
          | error e => rw [h1] at ha; simp at ha
          | ok a2 =>
              rw [h1] at ha
              have ha2 : injectPipeline base tl a2 = .ok x := ha
              rw [injectPipeline_cons_expand base d tl [] hm]
              show injectPipeline base tl [] = Except.ok []
              exact ih a2 x ha2

theorem injectPages_flatten (base : Resp) (ds : List Descriptor) (pls : List (List Obj)) :
    ∀ js, injectPipeline base ds [] = .ok [] →
    injectPages base ds pls = .ok js →
    injectPipeline base ds pls.flatten = .ok js.flatten := by
  induction pls with
  | nil =>
      intro js hnil h
      simp [injectPages] at h
      subst h
      simpa using hnil
  | cons l tl ih =>
      intro js hnil h
      unfold injectPages at h
      cases h1 : injectPipeline base ds l with
      | error e => simp [h1] at h
      | ok l2 =>
          rw [h1] at h
          cases h2 : injectPages base ds tl with
          | error e => simp [h2] at h
          | ok ls =>
              rw [h2] at h
              simp at h
              subst h
              simp only [List.flatten_cons]
              exact injectPipeline_append base ds l tl.flatten l2 ls.flatten h1
                (ih ls hnil h2)

theorem injectPipeline_congr_base (ds : List Descriptor) :
    ∀ (b1 b2 : Resp) (l : List Obj),
    (∀ d ∈ ds, pyGet b1 (Descriptor.sideload d).plural = pyGet b2 (Descriptor.sideload d).plural) →
    injectPipeline b1 ds l = injectPipeline b2 ds l := by
  induction ds with
  | nil => intro b1 b2 l _; rfl
  | cons d tl ih =>
      intro b1 b2 l hcong
      have hms : d.get_mapping ((pyGet b1 (Descriptor.sideload d).plural).getD [])
          = d.get_mapping ((pyGet b2 (Descriptor.sideload d).plural).getD []) := by
        rw [hcong d (by simp)]
      cases hm : d.get_mapping ((pyGet b2 (Descriptor.sideload d).plural).getD []) with
      | error e =>
          rw [injectPipeline_cons_error b1 d tl l (hms.trans hm),
            injectPipeline_cons_error b2 d tl l hm]
      | ok m =>
          rw [injectPipeline_cons_expand b1 d tl l (hms.trans hm),
            injectPipeline_cons_expand b2 d tl l hm]
          cases h1 : injectAll m (Descriptor.sideload d) l with
          | error e => rfl
          | ok l2 =>
              show injectPipeline b1 tl l2 = injectPipeline b2 tl l2
              exact ih b1 b2 l2 (fun d2 hd2 => hcong d2 (by simp [hd2]))

theorem resolve_sideloads_pipeline (ds : List Descriptor) :
    ∀ (resp : Resp) (l l2 : List Obj),
    pyGet resp "results" = some l →
    (∀ d ∈ ds, (Descriptor.sideload d).plural ≠ "results") →
    injectPipeline resp ds l = .ok l2 →
    resolve_sideloads resp ds = .ok (pySet resp "results" l2) := by
  induction ds with
  | nil =>
      intro resp l l2 hres _ hpipe
      simp [injectPipeline] at hpipe
      subst hpipe
      simp [resolve_sideloads, pySet_eq_of_pyGet resp "results" l hres]
  | cons d tl ih =>
      intro resp l l2 hres hP hpipe
      cases hm : d.get_mapping ((pyGet resp (Descriptor.sideload d).plural).getD []) with
      | error e =>
          rw [injectPipeline_cons_error resp d tl l hm] at hpipe
          simp at hpipe
      | ok m =>
          rw [injectPipeline_cons_expand resp d tl l hm] at hpipe
          cases h1 : injectAll m (Descriptor.sideload d) l with
          | error e => rw [h1] at hpipe; simp at hpipe
          | ok lmid =>
              rw [h1] at hpipe
              have hpipe2 : injectPipeline resp tl lmid = .ok l2 := hpipe
              have hres2 : pyGet (pySet resp "results" lmid) "results" = some lmid :=
                pyGet_pySet_self resp "results" lmid
              have hcong : injectPipeline (pySet resp "results" lmid) tl lmid = .ok l2 := by
                rw [injectPipeline_congr_base tl (pySet resp "results" lmid) resp lmid]
                · exact hpipe2
                · intro d2 hd2
                  exact pyGet_pySet_ne resp "results" (Descriptor.sideload d2).plural lmid
                    (hP d2 (by simp [hd2]))
              have htl := ih (pySet resp "results" lmid) lmid l2 hres2
                (fun d2 hd2 => hP d2 (by simp [hd2])) hcong
              simp [resolve_sideloads, resolve_one, hm, hres, h1, htl,
                pySet_pySet resp "results" lmid l2]

/-! ## Retry executor lemmas -/

theorem runRetryGo_raised (r : RetryRules) (outs : Nat → Outcome) :
    ∀ (fuel a el : Nat) (e : Exc) (k : Nat),
    runRetryGo r outs fuel a el = .raised e k → outs k = .exc e := by
  intro fuel
  induction fuel with
  | zero =>
      intro a el e k h
      unfold runRetryGo at h
      split at h
      · exact absurd h (by simp)
      · next e2 ho =>
          cases h
          exact ho
  | succ fuel ih =>
      intro a el e k h
      unfold runRetryGo at h
      split at h
      · exact absurd h (by simp)
      · next e2 ho =>
          split at h
          · cases h; exact ho
          · split at h
            · cases h; exact ho
            · exact ih (a + 1) (el + r.waitFixed) e k h

theorem runRetryGo_attempt_ge (r : RetryRules) (outs : Nat → Outcome) :
    ∀ (fuel a el : Nat), a ≤ (runRetryGo r outs fuel a el).attemptsMade := by
  intro fuel
  induction fuel with
  | zero =>
      intro a el
      unfold runRetryGo
      split
      · exact Nat.le_refl a
      · exact Nat.le_refl a
  | succ fuel ih =>
      intro a el
      unfold runRetryGo
      split
      · exact Nat.le_refl a
      · split
        · exact Nat.le_refl a
        · split
          · exact Nat.le_refl a
          · exact Nat.le_trans (Nat.le_succ a) (ih (a + 1) (el + r.waitFixed))

theorem runRetryGo_attempt_le (r : RetryRules) (outs : Nat → Outcome) :
    ∀ (fuel a el : Nat),
    (runRetryGo r outs fuel a el).attemptsMade ≤ max a r.stopAfterAttempt := by
  intro fuel
  induction fuel with
  | zero =>
      intro a el
      unfold runRetryGo
      split
      · exact Nat.le_max_left a r.stopAfterAttempt
      · exact Nat.le_max_left a r.stopAfterAttempt
  | succ fuel ih =>
      intro a el
      unfold runRetryGo
      split
      · exact Nat.le_max_left a r.stopAfterAttempt
      · split
        · exact Nat.le_max_left a r.stopAfterAttempt
        · split
          · exact Nat.le_max_left a r.stopAfterAttempt
          · next hns =>
              have ha : a < r.stopAfterAttempt := by
                rcases Nat.lt_or_ge a r.stopAfterAttempt with h | h
                · exact h
                · exact absurd (Or.inl h) hns
              calc (runRetryGo r outs fuel (a + 1) (el + r.waitFixed)).attemptsMade
                  ≤ max (a + 1) r.stopAfterAttempt := ih (a + 1) (el + r.waitFixed)
                _ = r.stopAfterAttempt := Nat.max_eq_right ha
                _ ≤ max a r.stopAfterAttempt := Nat.le_max_right a r.stopAfterAttempt

theorem runRetryGo_deadline (r : RetryRules) (outs : Nat → Outcome) :
    ∀ (fuel a el k : Nat),
    (runRetryGo r outs fuel a el).attemptsMade = k → a < k →
    el + (k - 1 - a) * r.waitFixed < r.stopAfterDelay ∧ k - 1 < r.stopAfterAttempt := by
  intro fuel
  induction fuel with
  | zero =>
      intro a el k h hak
      unfold runRetryGo at h
      split at h
      · simp [RetryResult.attemptsMade] at h
        exact absurd hak (by omega)
      · simp [RetryResult.attemptsMade] at h
        exact absurd hak (by omega)
  | succ fuel ih =>
      intro a el k h hak
      unfold runRetryGo at h
      split at h
      · simp [RetryResult.attemptsMade] at h
        exact absurd hak (by omega)
      · split at h
        · simp [RetryResult.attemptsMade] at h
          exact absurd hak (by omega)
        · split at h
          · simp [RetryResult.attemptsMade] at h
            exact absurd hak (by omega)
          · next hns =>
              have hel : el < r.stopAfterDelay := by
                rcases Nat.lt_or_ge el r.stopAfterDelay with hlt | hge
                · exact hlt
                · exact absurd (Or.inr hge) hns
              have hst : a < r.stopAfterAttempt := by
                rcases Nat.lt_or_ge a r.stopAfterAttempt with hlt | hge
                · exact hlt
                · exact absurd (Or.inl hge) hns
              have hge1 : a + 1 ≤ k := by
                have := runRetryGo_attempt_ge r outs fuel (a + 1) (el + r.waitFixed)
                omega
              rcases Nat.eq_or_lt_of_le hge1 with heq | hlt
              · constructor
                · have : k - 1 - a = 0 := by omega
                  rw [this]
                  simpa using hel
                · have : k - 1 = a := by omega
                  rw [this]
                  exact hst
              · have hih := ih (a + 1) (el + r.waitFixed) k h hlt
                constructor
                · have hrw : el + (k - 1 - a) * r.waitFixed
                      = el + r.waitFixed + (k - 1 - (a + 1)) * r.waitFixed := by
                    have hk2 : k - 1 - a = (k - 1 - (a + 1)) + 1 := by omega
                    rw [hk2]
                    ring
                  rw [hrw]
                  exact hih.1
                · exact hih.2

theorem runRetryGo_intermediate (r : RetryRules) (outs : Nat → Outcome) :
    ∀ (fuel a el k : Nat),
    (runRetryGo r outs fuel a el).attemptsMade = k →
    ∀ j, a ≤ j → j < k → ∃ e, outs j = .exc e ∧ r.retryOn e = true := by
  intro fuel
  induction fuel with
  | zero =>
      intro a el k h j haj hjk
      unfold runRetryGo at h
      split at h
      · simp [RetryResult.attemptsMade] at h
        exact absurd hjk (by omega)
      · simp [RetryResult.attemptsMade] at h
        exact absurd hjk (by omega)
  | succ fuel ih =>
      intro a el k h j haj hjk
      unfold runRetryGo at h
      split at h
      · simp [RetryResult.attemptsMade] at h
        exact absurd hjk (by omega)
      · next e2 ho =>
          split at h
          · simp [RetryResult.attemptsMade] at h
            exact absurd hjk (by omega)
          · next hr =>
              split at h
              · simp [RetryResult.attemptsMade] at h
                exact absurd hjk (by omega)
              · rcases Nat.eq_or_lt_of_le haj with heq | hlt
                · refine ⟨e2, ?_, ?_⟩
                  · rw [← heq]; exact ho
                  · cases hb : r.retryOn e2
                    · exact absurd hb hr
                    · rfl
                · exact ih (a + 1) (el + r.waitFixed) k h j hlt hjk

/-! ## Heap lemmas -/

theorem heapGet_heapSet_ne (h : Heap) (i r : Nat) (q : Query) (hne : r ≠ i) :
    heapGet (heapSet h i q) r = heapGet h r := by
  induction h generalizing i r with
  | nil => rfl
  | cons hd tl ih =>
      cases i with
      | zero =>
          cases r with
          | zero => exact absurd rfl hne
          | succ r2 => rfl
      | succ i2 =>
          cases r with
          | zero => rfl
          | succ r2 => exact ih i2 r2 (fun hh => hne (by omega))

theorem heapGet_heapSet_self (h : Heap) (i : Nat) (q : Query) (hi : i < h.length) :
    heapGet (heapSet h i q) i = q := by
  induction h generalizing i with
  | nil => simp at hi
  | cons hd tl ih =>
      cases i with
      | zero => rfl
      | succ i2 => exact ih i2 (by simpa using hi)

theorem heapGet_append_left (h : Heap) (q : Query) (r : Nat) (hr : r < h.length) :
    heapGet (h ++ [q]) r = heapGet h r := by
  induction h generalizing r with
  | nil => simp at hr
  | cons hd tl ih =>
      cases r with
      | zero => rfl
      | succ r2 => exact ih r2 (by simpa using hr)

theorem heapGet_append_length (h : Heap) (q : Query) :
    heapGet (h ++ [q]) h.length = q := by
  induction h with
  | nil => rfl
  | cons hd tl ih => exact ih

theorem foldl_setup_ne (r2 : Nat) (ds : List Descriptor) :
    ∀ (hh : Heap) (r : Nat), r ≠ r2 →
    heapGet (ds.foldl (fun x d => setup_query_st d r2 x) hh) r = heapGet hh r := by
  induction ds with
  | nil => intro hh r _; rfl
  | cons d tl ih =>
      intro hh r hne
      calc heapGet ((d :: tl).foldl (fun x dd => setup_query_st dd r2 x) hh) r
          = heapGet (setup_query_st d r2 hh) r := ih (setup_query_st d r2 hh) r hne
        _ = heapGet hh r := heapGet_heapSet_ne hh r2 r _ hne

theorem length_setup_query_st (d : Descriptor) (r2 : Nat) (hh : Heap) :
    (setup_query_st d r2 hh).length = hh.length := by
  unfold setup_query_st heapSet
  exact List.length_set hh r2 _

theorem foldl_setup_self (r2 : Nat) (ds : List Descriptor) :
    ∀ (hh : Heap), r2 < hh.length →
    heapGet (ds.foldl (fun x d => setup_query_st d r2 x) hh) r2
      = ds.foldl (fun q d => d.setupQuery q) (heapGet hh r2) := by
  induction ds with
  | nil => intro hh _; rfl
  | cons d tl ih =>
      intro hh hlen
      have hlen2 : r2 < (setup_query_st d r2 hh).length := by
        rw [length_setup_query_st]; exact hlen
      calc heapGet ((d :: tl).foldl (fun x dd => setup_query_st dd r2 x) hh) r2
          = tl.foldl (fun q dd => dd.setupQuery q) (heapGet (setup_query_st d r2 hh) r2) :=
            ih (setup_query_st d r2 hh) hlen2
        _ = tl.foldl (fun q dd => dd.setupQuery q) (d.setupQuery (heapGet hh r2)) := by
            rw [setup_query_st, heapGet_heapSet_self hh r2 _ hlen]

/-! ## Claim theorems -/

/-- **C6**: a `Sideload` built with only a plural name gets as singular name
the plural with the trailing pluralization (`rstrip("s")`) stripped, e.g.
`Sideload("documents")` has singular `"document"`; an explicitly supplied
singular name is kept unchanged. -/
theorem sideload_singular_default_claim :
    (∀ p : String, (mkSideload p none).singular = rstrip_s p)
    ∧ (∀ p s : String, (mkSideload p (some s)).singular = s)
    ∧ (mkSideload "documents" none).singular = "document" :=
  ⟨fun _ => rfl, fun _ _ => rfl, by decide⟩

/-- **C4**: calling `get_paginated` with a non-empty sideload list while the
query already carries a raw `sideload` parameter raises the configuration
error "sideloading cannot be specified both in query and sideloads" before
any request is issued (the request count is 0), whatever pages the server
would have served. -/
theorem sideload_conflict_claim :
    ∀ (query : Query) (key : String) (d : Descriptor) (ds : List Descriptor)
      (first : Page) (rest : List Page) (v : String),
    pyGet query "sideload" = some v →
    get_paginated query key (d :: ds) first rest
      = ⟨.error (.rossum "sideloading cannot be specified both in query and sideloads"),
          0, query⟩ := by
  intro query key d ds first rest v h
  simp [get_paginated, h]

/-- Witness for C4: the spec's concrete scenario, `query={"sideload":
"workspaces"}` together with the explicit descriptor `workspaces`. -/
theorem sideload_conflict_claim_witness :
    get_paginated [("sideload", "workspaces")] "results" [workspacesDescriptor] samplePage []
      = ⟨.error (.rossum "sideloading cannot be specified both in query and sideloads"),
          0, [("sideload", "workspaces")]⟩ :=
  sideload_conflict_claim [("sideload", "workspaces")] "results" workspacesDescriptor []
    samplePage [] "workspaces" rfl

/-- **C2**: `inject_sideloaded` replaces a singular reference field by the
looked-up object (the empty record `{}` when the reference misses the
mapping, without failing), and otherwise replaces a plural field holding a
list of references by the list of looked-up objects, silently dropping the
references absent from the mapping. -/
theorem resolve_inject_claim :
    (∀ (m : Mapping) (s : Sideload) (o : Obj) (u : String),
      pyGet o s.singular = some (.str u) →
      inject m s o = .ok (pySet o s.singular ((pyGet m u).getD (.obj []))))
    ∧ (∀ (m : Mapping) (s : Sideload) (o : Obj) (us : List String),
      pyGet o s.singular = none →
      pyGet o s.plural = some (.arr (us.map FieldVal.str)) →
      inject m s o = .ok (pySet o s.plural
        (.arr (us.filterMap (fun u => pyGet m u))))) := by
  constructor
  · intro m s o u h
    simp [inject, h]
  · intro m s o us h1 h2
    simp [inject, h1, h2, pyIter, resolveRefs_map_str]

/-- Witness for C2: a workspace reference resolved against the mapping built
from the sideloaded list. -/
theorem resolve_inject_claim_witness :
    inject [("u1", FieldVal.obj [("url", FieldVal.str "u1"), ("name", FieldVal.str "W1")])]
      (mkSideload "workspaces" none) [("workspace", FieldVal.str "u1")]
      = .ok (pySet [("workspace", FieldVal.str "u1")]
          (mkSideload "workspaces" none).singular
          ((pyGet [("u1", FieldVal.obj [("url", FieldVal.str "u1"), ("name", FieldVal.str "W1")])]
              "u1").getD (.obj []))) :=
  resolve_inject_claim.1
    [("u1", FieldVal.obj [("url", FieldVal.str "u1"), ("name", FieldVal.str "W1")])]
    (mkSideload "workspaces" none) [("workspace", FieldVal.str "u1")] "u1" rfl

/-- **C10**: a parent record carrying neither the singular nor the plural
field of a descriptor makes `_resolve_sideloads` raise an uncaught
`KeyError`; the never-fail behaviour only holds for records carrying at
least one of the two fields. -/
theorem resolve_keyerror_claim :
    (∀ (m : Mapping) (s : Sideload) (o : Obj),
      pyGet o s.singular = none → pyGet o s.plural = none →
      inject m s o = .error .keyError)
    ∧ (∀ (resp : Resp) (d : Descriptor) (o : Obj) (post : List Obj) (mm : Mapping),
      Descriptor.get_mapping d ((pyGet resp (Descriptor.sideload d).plural).getD [])
        = .ok mm →
      pyGet resp "results" = some (o :: post) →
      pyGet o (Descriptor.sideload d).singular = none →
      pyGet o (Descriptor.sideload d).plural = none →
      resolve_sideloads resp [d] = .error .keyError) := by
  constructor
  · intro m s o h1 h2
    simp [inject, h1, h2]
  · intro resp d o post mm hm hres h1 h2
    have hinj : inject mm (Descriptor.sideload d) o = .error .keyError := by
      simp [inject, h1, h2]
    simp [resolve_sideloads, resolve_one, hm, hres, injectAll, hinj]

/-- Witness for C10: a record with only a `queue` field, resolved against the
`workspaces` descriptor. -/
theorem resolve_keyerror_claim_witness :
    resolve_sideloads [("results", [[("queue", FieldVal.str "q1")]])] [workspacesDescriptor]
      = .error .keyError :=
  resolve_keyerror_claim.2 [("results", [[("queue", FieldVal.str "q1")]])]
    workspacesDescriptor [("queue", FieldVal.str "q1")] [] [] rfl rfl rfl rfl

/-- Counterexample for **C5**: one resolution pass turns the raw response
into the resolved one, and running `_resolve_sideloads` again on that
already-resolved response raises a `TypeError` (the resolved singular field
holds a dict, which is unhashable as a mapping key) — the second invocation
does fail, contradicting the claim. -/
theorem resolve_idempotence_counterexample :
    resolve_sideloads sampleRawResponse [workspacesDescriptor] = .ok sampleResolvedResponse
    ∧ resolve_sideloads sampleResolvedResponse [workspacesDescriptor]
        = .error .typeError :=
  ⟨rfl, rfl⟩

/-- **C5 (amended)**: sideload resolution is not idempotent: a second pass
over a record whose singular field already holds a concrete object raises a
`TypeError` (hashing an unhashable dict); a second pass is a no-op only in
the remaining already-resolved shape, records whose plural field holds the
empty list (every mapping lookup is skipped and the value is rewritten
unchanged). -/
theorem resolve_idempotence_amended :
    (∀ (m : Mapping) (s : Sideload) (o : Obj) (fields : Obj),
      pyGet o s.singular = some (.obj fields) → inject m s o = .error .typeError)
    ∧ (∀ (resp : Resp) (ds : List Descriptor) (results : List Obj),
      pyGet resp "results" = some results →
      (∀ d ∈ ds, ∃ mm, Descriptor.get_mapping d
          ((pyGet resp (Descriptor.sideload d).plural).getD []) = Except.ok mm) →
      (∀ o ∈ results, ∀ d ∈ ds,
        pyGet o (Descriptor.sideload d).singular = none
        ∧ pyGet o (Descriptor.sideload d).plural = some (.arr [])) →
      resolve_sideloads resp ds = .ok resp) := by
  constructor
  · intro m s o fields h
    simp [inject, h]
  · intro resp ds
    induction ds with
    | nil => intro results _ _ _; rfl
    | cons d tl ih =>
        intro results hres hmaps hflds
        obtain ⟨mm, hmm⟩ := hmaps d (by simp)
        have hinj : ∀ o ∈ results, inject mm (Descriptor.sideload d) o = .ok o := by
          intro o ho
          obtain ⟨hs, hp⟩ := hflds o ho d (by simp)
          simp [inject, hs, hp, pyIter, resolveRefs,
            pySet_eq_of_pyGet o (Descriptor.sideload d).plural (FieldVal.arr []) hp]
        have hall := injectAll_of_fixed mm (Descriptor.sideload d) results hinj
        have hone : resolve_one resp d = .ok resp := by
          simp [resolve_one, hmm, hres, hall,
            pySet_eq_of_pyGet resp "results" results hres]
        simp [resolve_sideloads, hone]
        exact ih results hres (fun d2 hd2 => hmaps d2 (by simp [hd2]))
          (fun o ho d2 hd2 => hflds o ho d2 (by simp [hd2]))

/-- Witness for C5 (amended): a second pass over a record whose plural field
already holds the empty list is a no-op. -/
theorem resolve_idempotence_amended_witness :
    resolve_sideloads sampleEmptyPluralResponse [workspacesDescriptor]
      = .ok sampleEmptyPluralResponse :=
  resolve_idempotence_amended.2 sampleEmptyPluralResponse [workspacesDescriptor]
    [[("workspaces", FieldVal.arr [])]] rfl
    (by
      intro d hd
      simp at hd
      subst hd
      exact ⟨[], rfl⟩)
    (by
      intro o ho d hd
      simp at ho hd
      subst ho
      subst hd
      exact ⟨rfl, rfl⟩)

/-- **C7**: `upload_document` raises a validation `RossumException` before
issuing any request when neither a file path nor file bytes is truthy, and
when file bytes are supplied without a truthy filename override; in both
cases the request count is 0. -/
theorem upload_document_validation_claim :
    (∀ (id2 : Nat) (file fo : Option String)
      (values meta : Option (List (String × String))) (fb : Option (List Nat)),
      strTruthy file = false → bytesTruthy fb = false →
      upload_document id2 file fo values meta fb
        = ⟨.error (.rossum "No file(s) to be sent."), 0⟩)
    ∧ (∀ (id2 : Nat) (file fo : Option String)
      (values meta : Option (List (String × String))) (fb : Option (List Nat)),
      bytesTruthy fb = true → strTruthy fo = false →
      upload_document id2 file fo values meta fb
        = ⟨.error (.rossum
            "Need to pass filename_overwrite parameter to state the file name for the uploaded document."),
            0⟩) := by
  constructor
  · intro id2 file fo values meta fb h1 h2
    simp [upload_document, h1, h2]
  · intro id2 file fo values meta fb h1 h2
    simp [upload_document, h1, h2]

/-- Witness for C7: the spec's concrete scenario
`upload_document(id=5, file_bytes=b"...", filename_overwrite=None)` (the
`file` argument keeps its default `""`). -/
theorem upload_document_validation_claim_witness :
    upload_document 5 (some "") none none none (some [46, 46, 46])
      = ⟨.error (.rossum
          "Need to pass filename_overwrite parameter to state the file name for the uploaded document."),
          0⟩ :=
  upload_document_validation_claim.2 5 (some "") none none none (some [46, 46, 46]) rfl rfl

/-- **C8**: bulk delete attempts each target independently in order: with no
unexpected failures every target (in mapping order) is attempted and the
call returns normally, an API error on one target echoes its message and
continues with the next, and an unexpected exception is echoed, re-raised as
a `RossumException`, and aborts the batch — targets after it are never
attempted. -/
theorem delete_batch_claim :
    (∀ (items : List (String × String)) (f : String → DelOutcome) (v : Nat) (it : String),
      (∀ p ∈ items, (f p.2).isUnexpected = false) →
      (delete items f v it).attempted = items.map (fun p => p.2)
      ∧ (delete items f v it).result = .ok ())
    ∧ (∀ (pre : List (String × String)) (id2 url m : String)
        (post : List (String × String)) (f : String → DelOutcome) (v : Nat) (it : String),
      (∀ p ∈ pre, (f p.2).isUnexpected = false) →
      f url = .otherError m →
      (delete (pre ++ (id2, url) :: post) f v it).attempted
          = pre.map (fun p => p.2) ++ [url]
      ∧ (delete (pre ++ (id2, url) :: post) f v it).result = .error (.rossum m))
    ∧ (∀ (id2 url m : String) (rest : List (String × String)) (f : String → DelOutcome)
        (v : Nat) (it : String),
      f url = .apiError m →
      delete ((id2, url) :: rest) f v it
        = ⟨url :: (delete rest f v it).attempted,
            s!"Deleting {it} {id2} caused \x22{m}\x22." :: (delete rest f v it).echoed,
            (delete rest f v it).result⟩) := by
  refine ⟨?_, ?_, ?_⟩
  · intro items f v it h
    induction items with
    | nil => exact ⟨rfl, rfl⟩
    | cons p tl ih =>
        obtain ⟨id2, url⟩ := p
        have hh := h (id2, url) (by simp)
        have iht := ih (fun p2 hp2 => h p2 (by simp [hp2]))
        cases hf : f url with
        | ok => simp [delete, hf, iht.1, iht.2]
        | apiError msg => simp [delete, hf, iht.1, iht.2]
        | otherError msg =>
            rw [hf] at hh
            simp [DelOutcome.isUnexpected] at hh
  · intro pre id2 url m post f v it hpre hfu
    induction pre with
    | nil => simp [delete, hfu]
    | cons p tl ih =>
        obtain ⟨idp, urlp⟩ := p
        have hh := hpre (idp, urlp) (by simp)
        have iht := ih (fun p2 hp2 => hpre p2 (by simp [hp2]))
        cases hf : f urlp with
        | ok => simp [delete, hf, iht.1, iht.2]
        | apiError msg => simp [delete, hf, iht.1, iht.2]
        | otherError msg =>
            rw [hf] at hh
            simp [DelOutcome.isUnexpected] at hh
  · intro id2 url m rest f v it hf
    simp [delete, hf]

/-- Witness for C8: a three-target batch whose second target raises an
unexpected exception — only the first two targets are attempted. -/
theorem delete_batch_claim_witness :
    (delete [("1", "url1"), ("2", "url2"), ("3", "url3")] sampleDeleteOutcome 0
        "annotation").attempted = ["url1", "url2"]
    ∧ (delete [("1", "url1"), ("2", "url2"), ("3", "url3")] sampleDeleteOutcome 0
        "annotation").result = .error (.rossum "boom") :=
  delete_batch_claim.2.1 [("1", "url1")] "2" "url2" "boom" [("3", "url3")]
    sampleDeleteOutcome 0 "annotation" (by decide) (by decide)

/-- **C9**: the caller-supplied query dict is left unchanged by
`get_paginated`'s query building: the descriptors' parameters are applied to
a `query.copy()`, even though `setup_query` itself mutates the dict it is
handed in place.  At the heap level: the dict at the caller's address is the
same before and after; with descriptors active the request uses a freshly
allocated dict holding the `setup_query` transforms of the caller's dict;
and `setup_query_st` run directly on an address does overwrite it. -/
theorem query_frame_claim :
    (∀ (ds : List Descriptor) (r : Nat) (h : Heap), r < h.length →
      heapGet (get_paginated_build_query_st ds r h).1 r = heapGet h r)
    ∧ (∀ (d : Descriptor) (ds : List Descriptor) (r : Nat) (h : Heap),
      pyGet (heapGet h r) "sideload" = none →
      (get_paginated_build_query_st (d :: ds) r h).2 = .ok h.length
      ∧ heapGet (get_paginated_build_query_st (d :: ds) r h).1 h.length
          = (d :: ds).foldl (fun q dd => dd.setupQuery q) (heapGet h r))
    ∧ (setup_query_st workspacesDescriptor 0 [[]] = [[("sideload", "workspaces")]]
        ∧ ([[("sideload", "workspaces")]] : Heap) ≠ [[]]) := by
  refine ⟨?_, ?_, by decide, by decide⟩
  · intro ds r h hr
    cases ds with
    | nil => rfl
    | cons d tl =>
        cases hc : (pyGet (heapGet h r) "sideload").isSome with
        | true => simp [get_paginated_build_query_st, hc]
        | false =>
            simp only [get_paginated_build_query_st, hc, Bool.false_eq_true, if_false]
            rw [foldl_setup_ne h.length (d :: tl) (h ++ [heapGet h r]) r (by omega)]
            exact heapGet_append_left h (heapGet h r) r hr
  · intro d ds r h hq
    have hc : (pyGet (heapGet h r) "sideload").isSome = false := by
      rw [hq]
      rfl
    constructor
    · simp [get_paginated_build_query_st, hc]
    · simp only [get_paginated_build_query_st, hc, Bool.false_eq_true, if_false]
      rw [foldl_setup_self h.length (d :: ds) (h ++ [heapGet h r]) (by simp)]
      rw [heapGet_append_length h (heapGet h r)]

/-- Witness for C9: one descriptor, one caller dict — the caller's dict is
untouched while the copy carries the sideload parameter. -/
theorem query_frame_claim_witness :
    (get_paginated_build_query_st [workspacesDescriptor] 0 [[("x", "1")]]).2
        = .ok ([[("x", "1")]] : Heap).length
    ∧ heapGet (get_paginated_build_query_st [workspacesDescriptor] 0 [[("x", "1")]]).1
        ([[("x", "1")]] : Heap).length
        = [workspacesDescriptor].foldl (fun q dd => dd.setupQuery q)
            (heapGet [[("x", "1")]] 0) :=
  query_frame_claim.2.1 workspacesDescriptor [] 0 [[("x", "1")]] rfl

/-- **C3**: the retry policy built by `get_retry_logic` retries exactly the
four transient connectivity failures (never HTTP-level errors or other
exceptions, which propagate after the first attempt); it defaults to 3
attempts with a fixed 5-second wait under a 55-second overall deadline and
re-raises; a run never exceeds `max_attempts` attempts, a k-th attempt is
only reached if the previous attempt had not yet exhausted the attempt
budget nor the deadline (whichever comes first stops it), every attempt
before the last failed with a retryable transient exception, and whatever
exception the run re-raises is exactly the one thrown by its final
attempt. -/
theorem retry_policy_claim :
    (∀ (rules : List (String × Nat)) (e : Exc),
      (get_retry_logic rules).retryOn e = true ↔
        (e = .proxyError ∨ e = .connectionError ∨ e = .newConnectionError
          ∨ e = .connectTimeoutError))
    ∧ ((get_retry_logic []).stopAfterAttempt = 3 ∧ (get_retry_logic []).waitFixed = 5
        ∧ (get_retry_logic []).stopAfterDelay = 55 ∧ (get_retry_logic []).reraise = true)
    ∧ (∀ (r : RetryRules) (outs : Nat → Outcome) (e : Exc),
      outs 1 = .exc e → r.retryOn e = false → runRetry r outs = .raised e 1)
    ∧ (∀ (r : RetryRules) (outs : Nat → Outcome) (e : Exc) (k : Nat),
      runRetry r outs = .raised e k → outs k = .exc e)
    ∧ (∀ (r : RetryRules) (outs : Nat → Outcome),
      (runRetry r outs).attemptsMade ≤ max 1 r.stopAfterAttempt)
    ∧ (∀ (r : RetryRules) (outs : Nat → Outcome) (k : Nat),
      (runRetry r outs).attemptsMade = k → 2 ≤ k →
      (k - 2) * r.waitFixed < r.stopAfterDelay ∧ k - 1 < r.stopAfterAttempt)
    ∧ (∀ (r : RetryRules) (outs : Nat → Outcome) (k j : Nat),
      (runRetry r outs).attemptsMade = k → 1 ≤ j → j < k →
      ∃ e, outs j = .exc e ∧ r.retryOn e = true) := by
  refine ⟨?_, ⟨rfl, rfl, rfl, rfl⟩, ?_, ?_, ?_, ?_, ?_⟩
  · intro rules e
    cases e <;> simp [get_retry_logic, retryOnTransient]
  · intro r outs e h1 h2
    unfold runRetry
    cases hs : r.stopAfterAttempt with
    | zero =>
        unfold runRetryGo
        rw [h1]
    | succ n =>
        unfold runRetryGo
        rw [h1]
        simp [h2]
  · intro r outs e k h
    exact runRetryGo_raised r outs r.stopAfterAttempt 1 0 e k h
  · intro r outs
    exact runRetryGo_attempt_le r outs r.stopAfterAttempt 1 0
  · intro r outs k h h2
    have hd := runRetryGo_deadline r outs r.stopAfterAttempt 1 0 k h (by omega)
    have h3 : k - 1 - 1 = k - 2 := by omega
    rw [h3] at hd
    simpa using hd
  · intro r outs k j h hj hjk
    exact runRetryGo_intermediate r outs r.stopAfterAttempt 1 0 k h j hj hjk

/-- Witness for C3: an HTTP-level failure on the first attempt is not
retried — the run raises it immediately after one attempt. -/
theorem retry_policy_claim_witness :
    runRetry (get_retry_logic []) (fun _ => Outcome.exc Exc.httpError)
      = .raised Exc.httpError 1 :=
  retry_policy_claim.2.2.1 (get_retry_logic []) (fun _ => Outcome.exc Exc.httpError)
    Exc.httpError rfl rfl

/-- Counterexample for **C1**: a single-page fetch with the `workspaces`
descriptor.  The returned list holds the record with its reference replaced
by the looked-up workspace object, so it differs from the concatenation of
the per-page `results` lists as served (here, the one raw record). -/
theorem get_paginated_concat_counterexample :
    (get_paginated [] "results" [workspacesDescriptor] samplePage []).result
      = .ok ([[("workspace",
          FieldVal.obj [("url", FieldVal.str "u1"), ("name", FieldVal.str "W1")])]], 1)
    ∧ ¬ ((get_paginated [] "results" [workspacesDescriptor] samplePage []).result
      = .ok (pageVals samplePage "results", lastTotal samplePage [])) := by
  constructor
  · rfl
  · intro hcontra
    have h1 : (get_paginated [] "results" [workspacesDescriptor] samplePage []).result
        = Except.ok ([[("workspace",
            FieldVal.obj [("url", FieldVal.str "u1"), ("name", FieldVal.str "W1")])]], 1) := rfl
    rw [h1] at hcontra
    simp [pageVals, samplePage, lastTotal] at hcontra

/-- **C1 (amended)**: the list `get_paginated` returns under the result key
is the concatenation, in page order, of the per-page lists under that key —
verbatim when no sideload descriptors are active, and with each record
passed through the sideload-injection transform when they are; the returned
integer is the `total` of the pagination block of the last page fetched. -/
theorem get_paginated_concat_amended :
    (∀ (query : Query) (key : String) (first : Page) (rest : List Page) (l0 : List Obj),
      pyGet first.content key = some l0 →
      (get_paginated query key [] first rest).result
        = .ok (l0 ++ (rest.map (fun p => pageVals p key)).flatten, lastTotal first rest))
    ∧ (∀ (query : Query) (d : Descriptor) (ds : List Descriptor) (first : Page)
        (rest : List Page) (l0 j0 : List Obj) (js : List (List Obj)),
      pyGet query "sideload" = none →
      pyGet first.content "results" = some l0 →
      (∀ d2 ∈ d :: ds, (Descriptor.sideload d2).plural ≠ "results") →
      injectPipeline (aggregate first rest) (d :: ds) l0 = .ok j0 →
      injectPages (aggregate first rest) (d :: ds)
        (rest.map (fun p => pageVals p "results")) = .ok js →
      (get_paginated query "results" (d :: ds) first rest).result
        = .ok (j0 ++ js.flatten, lastTotal first rest)) := by
  constructor
  · intro query key first rest l0 h
    have hagg := aggregate_get key first rest l0 h
    simp [get_paginated, hagg]
  · intro query d ds first rest l0 j0 js hq h0 hP hpipe hpages
    have hagg : pyGet (aggregate first rest) "results"
        = some (l0 ++ (rest.map (fun p => pageVals p "results")).flatten) :=
      aggregate_get "results" first rest l0 h0
    have hnil := injectPipeline_nil_of_ok (aggregate first rest) (d :: ds) l0 j0 hpipe
    have hjoin := injectPages_flatten (aggregate first rest) (d :: ds)
      (rest.map (fun p => pageVals p "results")) js hnil hpages
    have hfull := injectPipeline_append (aggregate first rest) (d :: ds) l0
      (rest.map (fun p => pageVals p "results")).flatten j0 js.flatten hpipe hjoin
    have hres := resolve_sideloads_pipeline (d :: ds) (aggregate first rest)
      (l0 ++ (rest.map (fun p => pageVals p "results")).flatten) (j0 ++ js.flatten)
      hagg hP hfull
    have hq2 : (pyGet query "sideload").isSome = false := by rw [hq]; rfl
    simp [get_paginated, hq2, hres, pyGet_pySet_self]

/-- Witness for C1 (amended): the sideloaded single-page fetch — the
returned list is the page's list passed through injection, the total is the
page's. -/
theorem get_paginated_concat_amended_witness :
    (get_paginated [] "results" [workspacesDescriptor] samplePage []).result
      = .ok ([[("workspace",
          FieldVal.obj [("url", FieldVal.str "u1"), ("name", FieldVal.str "W1")])]]
          ++ List.flatten ([] : List (List Obj)), lastTotal samplePage []) :=
  get_paginated_concat_amended.2 [] workspacesDescriptor [] samplePage []
    [[("workspace", FieldVal.str "u1")]]
    [[("workspace", FieldVal.obj [("url", FieldVal.str "u1"), ("name", FieldVal.str "W1")])]]
    [] rfl rfl (by decide) rfl rfl

end Rossum
